import Mathlib

/-!
Verification of `content_summarizer.py` (tdiprima/ai-content-summarizer)
against its natural-language specification.

Modelling conventions:
* Python strings are modelled as `List Char`.
* External effects (HTTP fetch, model completion, the file system) are
  modelled by oracle functions collected in an `Env`; the side effects a
  run performs are recorded as a trace of `Event`s.
* Functions that in Python catch every exception and return `""` are
  modelled as total functions over `Option`-valued oracles, where `none`
  is the oracle outcome corresponding to a raised exception.
-/

namespace ContentSummarizer

/-- Whitespace characters stripped by Python `str.strip()` (ASCII subset,
which covers every input appearing in this development). -/
def isPySpace (c : Char) : Bool :=
  c = ' ' || c = '\t' || c = '\n' || c = '\r' || c = '\x0b' || c = '\x0c'

/-- Model of Python `str.strip()`: drop leading and trailing whitespace. -/
def pyStrip (s : List Char) : List Char :=
  ((s.dropWhile isPySpace).reverse.dropWhile isPySpace).reverse

/-- Model of Python `line.startswith("#")` (content_summarizer.py line 82):
the test looks at the raw first character, before any stripping. -/
def startsWithHash : List Char → Bool
  | '#' :: _ => true
  | _ => false

/-- Model of iterating a Python text file: the sequence of lines, each
including its trailing newline character (the last line may lack one);
empty content yields no lines. -/
def pyLines : List Char → List (List Char)
  | [] => []
  | c :: rest =>
    if c = '\n' then ['\n'] :: pyLines rest
    else
      match pyLines rest with
      | [] => [[c]]
      | l :: ls => (c :: l) :: ls

/-- The filter of the list comprehension at content_summarizer.py line 82:
`if line.strip() and not line.startswith("#")`, applied to the raw line. -/
def keepsLine (line : List Char) : Bool :=
  !(pyStrip line).isEmpty && !(startsWithHash line)

/-- Model of line 82:
`[line.strip() for line in f if line.strip() and not line.startswith("#")]`. -/
def parse_url_lines (content : List Char) : List (List Char) :=
  ((pyLines content).filter keepsLine).map pyStrip

/-- The literal placeholder token of content_summarizer.py line 61. -/
def placeholder : List Char :=
  "\x7b\x7b insert blog post or raw dev thread here \x7d\x7d".toList

/-- Model of Python `s.replace(old, new)`: replace the leftmost,
non-overlapping occurrences of `old` in `s`, scanning left to right.
The program only calls it with `old = placeholder`, which is non-empty;
the `old = []` equation is a harmless placeholder for totality. -/
def replaceAll : List Char → List Char → List Char → List Char
  | _, _, [] => []
  | [], _, s => s
  | o :: os, new, c :: rest =>
    if (o :: os).isPrefixOf (c :: rest) then
      new ++ replaceAll (o :: os) new (rest.drop os.length)
    else
      c :: replaceAll (o :: os) new rest
termination_by _ _ s => s.length
decreasing_by
  · simp only [List.length_cons, List.length_drop]
    omega
  · simp only [List.length_cons]
    omega

/-- Model of Python `"\n".join(...)` (content_summarizer.py line 37). -/
def joinNl : List (List Char) → List Char
  | [] => []
  | [p] => p
  | p :: q :: rest => p ++ '\n' :: joinNl (q :: rest)

/-- Model of `os.path.join(a, b)` for POSIX paths (content_summarizer.py
line 101). -/
def path_join (a b : List Char) : List Char :=
  if b.head? = some '/' then b
  else if a = [] ∨ a.getLast? = some '/' then a ++ b
  else a ++ '/' :: b

/-- Split a path into (directory part including trailing slashes, basename):
the basename is everything after the last '/'.  Helper for `splitext`. -/
def splitBase : List Char → List Char × List Char
  | [] => ([], [])
  | c :: rest =>
    if '/' ∈ rest then
      ((splitBase rest).1.cons c, (splitBase rest).2)
    else if c = '/' then ([c], rest)
    else ([], c :: rest)

/-- Split a basename at its last '.', returning (part before it, suffix
from it on), or `none` when it has no dot.  Helper for `splitext`. -/
def splitLastDot : List Char → Option (List Char × List Char)
  | [] => none
  | c :: rest =>
    match splitLastDot rest with
    | some (s, e) => some (c :: s, e)
    | none => if c = '.' then some ([], c :: rest) else none

/-- Model of CPython `os.path.splitext` (posixpath): the extension starts
at the last dot lying after the last path separator, except that a
basename consisting of leading dots only has no extension. -/
def splitext (p : List Char) : List Char × List Char :=
  match splitLastDot (splitBase p).2 with
  | none => (p, [])
  | some (stem, ext) =>
    if stem.all (fun c => c = '.') then (p, [])
    else ((splitBase p).1 ++ stem, ext)

/-- The externally visible actions a run performs: an attempted HTTP GET,
an attempted model completion, a file write (path, content), a directory
creation. -/
inductive Event where
  | fetch (url : List Char)
  | completion (prompt : List Char)
  | write (path : List Char) (content : List Char)
  | mkdir (dir : List Char)
deriving DecidableEq

/-- Whether an event is a file write. -/
def Event.isWrite : Event → Bool
  | .write _ _ => true
  | _ => false

/-- Whether an event is an HTTP fetch. -/
def Event.isFetch : Event → Bool
  | .fetch _ => true
  | _ => false

/-- Whether an event is a model completion. -/
def Event.isCompletion : Event → Bool
  | .completion _ => true
  | _ => false

/-- The write events of a trace. -/
def writesOf (evs : List Event) : List Event :=
  evs.filter Event.isWrite

/-- Outcome of a successful `requests.get`, abstracted for this program:
the HTTP status code and the `<p>`-element texts that
`soup.find_all("p")` / `get_text()` produce after `<script>`/`<style>`
removal (the only part of the body the program observes). -/
structure HttpResponse where
  status : Nat
  paragraphs : List (List Char)

/-- The run's environment: the outcomes of every external interaction.
`none` models a raised exception (network error, missing file, API
failure); existence flags model `os.path.exists` checks. -/
structure Env where
  promptExists : Bool
  promptTemplate : Option (List Char)
  urlsExists : Bool
  urlsContent : Option (List Char)
  inputExists : Bool
  inputContent : Option (List Char)
  outputDirExists : Bool
  fetchResult : List Char → Option HttpResponse
  completionResult : List Char → Option (List Char)

/-- Model of `extract_article_text` (lines 24-42): attempt the GET (always
one fetch event); on a raised exception (`none`) or an HTTP error status
(`raise_for_status` raises exactly for 400-599) the handler returns `""`;
otherwise join the paragraph texts with newlines and strip. -/
def extract_article_text (fetchResult : List Char → Option HttpResponse)
    (url : List Char) : List Event × List Char :=
  ([Event.fetch url],
    match fetchResult url with
    | none => []
    | some r =>
      if 400 ≤ r.status ∧ r.status < 600 then []
      else pyStrip (joinNl r.paragraphs))

/-- Model of `read_text_file` (lines 45-52): `none` models any I/O error,
which the handler turns into `""`; otherwise the content is stripped. -/
def read_text_file (content : Option (List Char)) : List Char :=
  match content with
  | none => []
  | some c => pyStrip c

/-- Model of `summarize_with_prompt` (lines 55-72): load `prompt.txt`
(`none` models a failed open, caught and turned into `""` with no
completion attempted), substitute the article text for the placeholder,
attempt one completion; a raised API error (`none`) is caught and turned
into `""`. -/
def summarize_with_prompt (promptTemplate : Option (List Char))
    (completionResult : List Char → Option (List Char))
    (article_text : List Char) : List Event × List Char :=
  match promptTemplate with
  | none => ([], [])
  | some tmpl =>
    match completionResult (replaceAll placeholder article_text tmpl) with
    | none => ([Event.completion (replaceAll placeholder article_text tmpl)], [])
    | some s => ([Event.completion (replaceAll placeholder article_text tmpl)], s)

/-- The batch output file name of line 100: `f"summary_{i:03d}.md"`. -/
def summaryFilename (i : Nat) : List Char :=
  "summary_".toList ++
    (List.replicate (3 - (Nat.toDigits 10 i).length) '0' ++ Nat.toDigits 10 i) ++
    ".md".toList

/-- The batch output file content of lines 104-106. -/
def batchFileContent (url summary : List Char) : List Char :=
  "# Summary for:\n".toList ++ url ++ "\n\n".toList ++ summary ++ "\n\n<br>\n".toList

/-- One iteration of the batch loop (lines 84-108) for item number `i`. -/
def processItem (env : Env) (output_dir : List Char) (i : Nat)
    (url : List Char) : List Event :=
  let fa := extract_article_text env.fetchResult url
  if fa.2 = [] then fa.1
  else
    let ss := summarize_with_prompt env.promptTemplate env.completionResult fa.2
    if ss.2 = [] then fa.1 ++ ss.1
    else fa.1 ++ ss.1 ++
      [Event.write (path_join output_dir (summaryFilename i)) (batchFileContent url ss.2)]

/-- The batch loop of line 84 (`enumerate(urls, 1)`): items in file order,
1-based sequence numbers. -/
def processLoop (env : Env) (output_dir : List Char) (i : Nat) :
    List (List Char) → List Event
  | [] => []
  | url :: rest => processItem env output_dir i url ++ processLoop env output_dir (i + 1) rest

/-- Model of `process_urls_from_file` (lines 75-113): create the output
directory when absent, open the list file (`none` models a
`FileNotFoundError`, caught with only a log), parse it and run the loop
from sequence number 1. -/
def process_urls_from_file (env : Env) (content : Option (List Char))
    (output_dir : List Char) : List Event :=
  (if env.outputDirExists then [] else [Event.mkdir output_dir]) ++
    match content with
    | none => []
    | some c => processLoop env output_dir 1 (parse_url_lines c)

/-- The single-file output name of lines 133-135: the explicit override,
or else `os.path.splitext(text_file)[0] + "_summary.md"`. -/
def text_output_file (text_file : List Char) (output_file : Option (List Char)) : List Char :=
  match output_file with
  | some o => o
  | none => (splitext text_file).1 ++ "_summary.md".toList

/-- The single-file output content of lines 139-141. -/
def textFileContent (text_file summary : List Char) : List Char :=
  "# Summary for: ".toList ++ text_file ++ "\n\n".toList ++ summary ++ "\n".toList

/-- Model of `process_text_file` (lines 116-143). -/
def process_text_file (env : Env) (text_file : List Char)
    (content : Option (List Char)) (output_file : Option (List Char)) : List Event :=
  let article_text := read_text_file content
  if article_text = [] then []
  else
    let ss := summarize_with_prompt env.promptTemplate env.completionResult article_text
    if ss.2 = [] then ss.1
    else ss.1 ++
      [Event.write (text_output_file text_file output_file) (textFileContent text_file ss.2)]

/-- The two processing modes of the `--mode` flag. -/
inductive Mode where
  | web
  | text

/-- The sample list file written by lines 171-174 when the list file is
absent. -/
def sampleUrlsContent : List Char :=
  "# Add URLs here, one per line\n# Example:\n# https://example.com/blog-post\n".toList

/-- Model of `main` (lines 146-189): abort if `prompt.txt` does not exist;
in web mode create a sample list file and abort when the list file is
absent, else run the batch; in text mode abort when the input file is
absent, else process it. -/
def main (env : Env) (mode : Mode) (inputArg outputArg : Option (List Char)) :
    List Event :=
  if env.promptExists = false then []
  else
    match mode with
    | .web =>
      let urls_file := inputArg.getD "urls.txt".toList
      let output_dir := outputArg.getD "summaries".toList
      if env.urlsExists = false then [Event.write urls_file sampleUrlsContent]
      else process_urls_from_file env env.urlsContent output_dir
    | .text =>
      let text_file := inputArg.getD "input.txt".toList
      if env.inputExists = false then []
      else process_text_file env text_file env.inputContent outputArg

/-- A file-system state: contents by path. -/
def Store := List Char → Option (List Char)

/-- Apply one event to a file-system state: a write overwrites the file
at its path (Python `open(path, "w")` truncates); other events leave file
contents unchanged. -/
def applyEvent (fs : Store) : Event → Store
  | .write p c => fun q => if q = p then some c else fs q
  | _ => fs

/-- Apply a trace of events to a file-system state, in order. -/
def applyEvents (fs : Store) : List Event → Store
  | [] => fs
  | e :: rest => applyEvents (applyEvent fs e) rest

/-- The last content written to path `p` by a trace, if any. -/
def lastWrite : List Event → List Char → Option (List Char)
  | [], _ => none
  | e :: rest, p =>
    match lastWrite rest p with
    | some c => some c
    | none =>
      match e with
      | .write q c => if p = q then some c else none
      | _ => none

/-- A concrete environment in which every stage succeeds; used to
instantiate theorems with hypotheses at explicit inputs. -/
def testEnv : Env where
  promptExists := true
  promptTemplate := some ("Summarize:\n\n".toList ++ placeholder)
  urlsExists := true
  urlsContent := some "https://a.test\n".toList
  inputExists := true
  inputContent := some "hello".toList
  outputDirExists := true
  fetchResult := fun _ => some { status := 200, paragraphs := [['x']] }
  completionResult := fun _ => some ['S']

/-! ### Theorems -/

/-- Fuel-indexed form: whenever `old = o :: os` occurs in the template,
the replacement string occurs in the output of `replaceAll`. -/
theorem infix_new_replaceAll_fuel (o : Char) (os new : List Char) :
    ∀ (n : Nat) (tmpl : List Char), tmpl.length ≤ n →
      (o :: os) <:+: tmpl → new <:+: replaceAll (o :: os) new tmpl := by
  intro n
  induction n with
  | zero =>
    intro tmpl hlen hinf
    have htmpl : tmpl = [] := List.length_eq_zero.1 (Nat.le_zero.1 hlen)
    subst htmpl
    exact absurd (List.infix_nil.1 hinf) (by simp)
  | succ n ih =>
    intro tmpl hlen hinf
    match tmpl with
    | [] => exact absurd (List.infix_nil.1 hinf) (by simp)
    | c :: rest =>
      by_cases hp : (o :: os).isPrefixOf (c :: rest) = true
      · rw [replaceAll, if_pos hp]
        exact (List.prefix_append new _).isInfix
      · rw [replaceAll, if_neg hp]
        have hr : (o :: os) <:+: rest := by
          rcases List.infix_cons_iff.1 hinf with hpre | hinf2
          · exact absurd (List.isPrefixOf_iff_prefix.2 hpre) hp
          · exact hinf2
        have hlen2 : rest.length ≤ n := by
          simp only [List.length_cons] at hlen
          omega
        obtain ⟨s, t, hst⟩ := ih rest hlen2 hr
        exact ⟨c :: s, t, by rw [← hst]; simp⟩

/-- Whenever a non-empty `old` occurs in the template, the replacement
string occurs in the output of `replaceAll`. -/
theorem infix_new_replaceAll (old new tmpl : List Char) (hold : old ≠ [])
    (h : old <:+: tmpl) : new <:+: replaceAll old new tmpl := by
  obtain ⟨o, os, rfl⟩ : ∃ o os, old = o :: os := by
    cases old with
    | nil => exact absurd rfl hold
    | cons o os => exact ⟨o, os, rfl⟩
  exact infix_new_replaceAll_fuel o os new tmpl.length tmpl Nat.le.refl h

/-- C1 (amended): for every template containing the placeholder token and
every extracted text, the prompt passed to the model — the result of the
line-61 substitution — contains the full extracted text as a contiguous
substring.  (The original claim's second half, that the output contains
no occurrence of the placeholder token, is false; see the
counterexample.) -/
theorem C1_prompt_contains_extracted_text (tmpl text : List Char)
    (h : placeholder <:+: tmpl) :
    text <:+: replaceAll placeholder text tmpl :=
  infix_new_replaceAll placeholder text tmpl (by decide) h

/-- C1 witness: a concrete template and extracted text for which the
theorem applies. -/
theorem C1_prompt_contains_extracted_text_witness :
    placeholder <:+: placeholder ∧ ['x'] <:+: replaceAll placeholder ['x'] placeholder :=
  ⟨List.infix_rfl, C1_prompt_contains_extracted_text placeholder ['x'] List.infix_rfl⟩

/-- C1 counterexample: the claim as stated is false.  When the extracted
text is itself the placeholder token, the substituted prompt still
contains the placeholder token. -/
theorem C1_counterexample :
    ¬ (∀ tmpl text : List Char, placeholder <:+: tmpl →
        text <:+: replaceAll placeholder text tmpl ∧
        ¬ placeholder <:+: replaceAll placeholder text tmpl) := by
  intro h
  exact (h placeholder placeholder List.infix_rfl).2
    (infix_new_replaceAll placeholder placeholder placeholder (by decide) List.infix_rfl)

/-- C3: on the list file content `"# comment\n\nhttps://a.test\nhttps://b.test\n"`
the batch loop parses exactly the two URLs, in file order, and processes
them as items with 1-based sequence numbers 1 and 2, ignoring the
comment line and the blank line. -/
theorem C3_two_items_numbered_in_order :
    parse_url_lines "# comment\n\nhttps://a.test\nhttps://b.test\n".toList =
      ["https://a.test".toList, "https://b.test".toList] ∧
    ∀ (env : Env) (output_dir : List Char),
      processLoop env output_dir 1
          (parse_url_lines "# comment\n\nhttps://a.test\nhttps://b.test\n".toList) =
        processItem env output_dir 1 "https://a.test".toList ++
          processItem env output_dir 2 "https://b.test".toList := by
  refine ⟨by decide, ?_⟩
  intro env output_dir
  rw [show parse_url_lines "# comment\n\nhttps://a.test\nhttps://b.test\n".toList =
      ["https://a.test".toList, "https://b.test".toList] from by decide]
  simp [processLoop]

/-- C10: the comment test of line 82 (`line.startswith("#")`) is applied
to the raw line before stripping, so a line whose first non-whitespace
character is '#' but which begins with leading whitespace is not treated
as a comment: it is stripped and processed as an item. -/
theorem C10_indented_hash_is_item :
    startsWithHash "  # note\n".toList = false ∧
    parse_url_lines "  # note\n".toList = ["# note".toList] := by
  decide

/-- C8: for every fetched document with zero `<p>` elements (an empty
paragraph list), web content extraction returns the empty string. -/
theorem C8_no_paragraphs_empty_extraction
    (fetchResult : List Char → Option HttpResponse) (url : List Char)
    (r : HttpResponse) (hr : fetchResult url = some r)
    (hp : r.paragraphs = []) :
    (extract_article_text fetchResult url).2 = [] := by
  simp only [extract_article_text, hr, hp]
  split
  · rfl
  · simp [joinNl, pyStrip]

/-- C8 witness: a concrete 200 response with no paragraphs extracts to
the empty string. -/
theorem C8_no_paragraphs_empty_extraction_witness :
    (extract_article_text (fun _ => some { status := 200, paragraphs := [] })
        "https://a.test".toList).2 = [] :=
  C8_no_paragraphs_empty_extraction _ "https://a.test".toList
    { status := 200, paragraphs := [] } rfl rfl

/-- C4: if `prompt.txt` does not exist at startup, `main` aborts before
performing any network call: its trace contains zero fetches and zero
model completions, in both web-batch and single-file modes. -/
theorem C4_missing_template_aborts_before_network (env : Env) (mode : Mode)
    (inputArg outputArg : Option (List Char))
    (h : env.promptExists = false) :
    (main env mode inputArg outputArg).filter Event.isFetch = [] ∧
    (main env mode inputArg outputArg).filter Event.isCompletion = [] := by
  simp [main, h]

/-- C4 witness: a concrete environment with no `prompt.txt`, in web
mode. -/
theorem C4_missing_template_aborts_before_network_witness :
    ({ testEnv with promptExists := false } : Env).promptExists = false ∧
    (main { testEnv with promptExists := false } Mode.web none none).filter
        Event.isFetch = [] ∧
    (main { testEnv with promptExists := false } Mode.text none none).filter
        Event.isCompletion = [] :=
  ⟨rfl,
    (C4_missing_template_aborts_before_network _ Mode.web none none rfl).1,
    (C4_missing_template_aborts_before_network _ Mode.text none none rfl).2⟩

/-- C6 (amended): the content-source operations and the summarizer call
are total (they are functions in this model, so no exception reaches the
caller) and signal every failure by returning the empty string: a raised
network error, an HTTP error status 400-599 (the statuses for which
`raise_for_status` raises — not every non-2xx status; see the
counterexample), a file I/O error, a template-load failure, and a raised
completion-API error all yield the empty string. -/
theorem C6_errors_return_empty_string :
    (∀ (f : List Char → Option HttpResponse) (url : List Char),
        f url = none → (extract_article_text f url).2 = []) ∧
    (∀ (f : List Char → Option HttpResponse) (url : List Char) (r : HttpResponse),
        f url = some r → 400 ≤ r.status → r.status < 600 →
        (extract_article_text f url).2 = []) ∧
    read_text_file none = [] ∧
    (∀ (cr : List Char → Option (List Char)) (a : List Char),
        (summarize_with_prompt none cr a).2 = []) ∧
    (∀ (tmpl a : List Char) (cr : List Char → Option (List Char)),
        cr (replaceAll placeholder a tmpl) = none →
        (summarize_with_prompt (some tmpl) cr a).2 = []) := by
  refine ⟨?_, ?_, rfl, ?_, ?_⟩
  · intro f url h
    simp [extract_article_text, h]
  · intro f url r h h4 h6
    simp only [extract_article_text, h]
    rw [if_pos ⟨h4, h6⟩]
  · intro cr a
    rfl
  · intro tmpl a cr h
    simp [summarize_with_prompt, h]

/-- C6 witness: concrete error outcomes — a raised network error, a 404
response, and a raised completion-API error — each yield the empty
string. -/
theorem C6_errors_return_empty_string_witness :
    (extract_article_text (fun _ => none) "https://a.test".toList).2 = [] ∧
    (extract_article_text (fun _ => some { status := 404, paragraphs := [['x']] })
        "https://a.test".toList).2 = [] ∧
    (summarize_with_prompt (some placeholder) (fun _ => none) ['a']).2 = [] :=
  ⟨C6_errors_return_empty_string.1 _ "https://a.test".toList rfl,
    C6_errors_return_empty_string.2.1 _ "https://a.test".toList
      { status := 404, paragraphs := [['x']] } rfl (by decide) (by decide),
    C6_errors_return_empty_string.2.2.2.2 placeholder ['a'] _ rfl⟩

/-- C6 counterexample: the claim as stated is false.  A non-2xx status
below 400 — here 300 — is not treated as a failure: `raise_for_status`
does not raise for it, and a body with a paragraph yields a non-empty
extraction. -/
theorem C6_counterexample :
    ¬ (∀ (f : List Char → Option HttpResponse) (url : List Char) (r : HttpResponse),
        f url = some r → ¬ (200 ≤ r.status ∧ r.status ≤ 299) →
        (extract_article_text f url).2 = []) := by
  intro h
  have h300 := h (fun _ => some { status := 300, paragraphs := [['x']] })
    "https://a.test".toList { status := 300, paragraphs := [['x']] } rfl (by decide)
  exact absurd h300 (by decide)

/-- The extraction trace is one fetch and no writes. -/
theorem writesOf_extract (f : List Char → Option HttpResponse) (url : List Char) :
    writesOf (extract_article_text f url).1 = [] := by
  simp [extract_article_text, writesOf, Event.isWrite]

/-- The summarizer trace is at most one completion and no writes. -/
theorem writesOf_summarize (pt : Option (List Char))
    (cr : List Char → Option (List Char)) (a : List Char) :
    writesOf (summarize_with_prompt pt cr a).1 = [] := by
  cases pt with
  | none => rfl
  | some tmpl =>
    rcases h : cr (replaceAll placeholder a tmpl) with _ | s <;>
      simp [summarize_with_prompt, h, writesOf, Event.isWrite]

/-- Splitting a trace splits its write events. -/
theorem writesOf_append (evs1 evs2 : List Event) :
    writesOf (evs1 ++ evs2) = writesOf evs1 ++ writesOf evs2 :=
  List.filter_append evs1 evs2

/-- Non-write events leave every file unchanged. -/
theorem applyEvent_not_write (fs : Store) (e : Event) (h : e.isWrite = false) :
    applyEvent fs e = fs := by
  cases e <;> first
    | rfl
    | exact absurd h (by simp [Event.isWrite])

/-- Applying a concatenated trace applies its parts in order. -/
theorem applyEvents_append (evs1 evs2 : List Event) :
    ∀ fs : Store, applyEvents fs (evs1 ++ evs2) = applyEvents (applyEvents fs evs1) evs2 := by
  induction evs1 with
  | nil => intro fs; rfl
  | cons e rest ih =>
    intro fs
    simp only [List.cons_append, applyEvents]
    exact ih (applyEvent fs e)

/-- A trace with no write events leaves every file unchanged. -/
theorem applyEvents_no_writes (evs : List Event) (h : writesOf evs = []) :
    ∀ fs : Store, applyEvents fs evs = fs := by
  induction evs with
  | nil => intro fs; rfl
  | cons e rest ih =>
    intro fs
    rw [writesOf, List.filter_cons] at h
    split at h
    · exact absurd h (by simp)
    · rename_i he
      rw [applyEvents, applyEvent_not_write fs e (by simpa using he)]
      exact ih h fs

/-- C2: for every batch item with a non-empty summary, the Writer emits
exactly one file whose content is exactly the source-naming header, then
the summary, then the fixed trailing separator; and, for every single
input file with a non-empty summary, likewise with the single-file header
and separator.  In both modes the write overwrites whatever the file
system previously held at that path. -/
theorem C2_writer_header_summary_separator :
    (∀ (env : Env) (output_dir : List Char) (i : Nat) (url s : List Char),
      (extract_article_text env.fetchResult url).2 ≠ [] →
      (summarize_with_prompt env.promptTemplate env.completionResult
          (extract_article_text env.fetchResult url).2).2 = s →
      s ≠ [] →
      writesOf (processItem env output_dir i url) =
        [Event.write (path_join output_dir (summaryFilename i))
          ("# Summary for:\n".toList ++ url ++ "\n\n".toList ++ s ++ "\n\n<br>\n".toList)] ∧
      ∀ fs : Store,
        applyEvents fs (processItem env output_dir i url)
            (path_join output_dir (summaryFilename i)) =
          some ("# Summary for:\n".toList ++ url ++ "\n\n".toList ++ s ++
            "\n\n<br>\n".toList)) ∧
    (∀ (env : Env) (text_file : List Char) (content : Option (List Char))
        (output_file : Option (List Char)) (s : List Char),
      read_text_file content ≠ [] →
      (summarize_with_prompt env.promptTemplate env.completionResult
          (read_text_file content)).2 = s →
      s ≠ [] →
      writesOf (process_text_file env text_file content output_file) =
        [Event.write (text_output_file text_file output_file)
          ("# Summary for: ".toList ++ text_file ++ "\n\n".toList ++ s ++ "\n".toList)] ∧
      ∀ fs : Store,
        applyEvents fs (process_text_file env text_file content output_file)
            (text_output_file text_file output_file) =
          some ("# Summary for: ".toList ++ text_file ++ "\n\n".toList ++ s ++
            "\n".toList)) := by
  constructor
  · intro env output_dir i url s h1 hs hne
    subst hs
    have hproc : processItem env output_dir i url =
        (extract_article_text env.fetchResult url).1 ++
          (summarize_with_prompt env.promptTemplate env.completionResult
            (extract_article_text env.fetchResult url).2).1 ++
          [Event.write (path_join output_dir (summaryFilename i))
            (batchFileContent url
              (summarize_with_prompt env.promptTemplate env.completionResult
                (extract_article_text env.fetchResult url).2).2)] := by
      simp only [processItem]
      rw [if_neg h1, if_neg hne]
    constructor
    · rw [hproc, writesOf_append, writesOf_append, writesOf_extract, writesOf_summarize]
      simp [writesOf, Event.isWrite, batchFileContent]
    · intro fs
      rw [hproc, applyEvents_append, applyEvents_append,
        applyEvents_no_writes _ (writesOf_extract _ _),
        applyEvents_no_writes _ (writesOf_summarize _ _ _)]
      simp [applyEvents, applyEvent, batchFileContent]
  · intro env text_file content output_file s h1 hs hne
    subst hs
    have hproc : process_text_file env text_file content output_file =
        (summarize_with_prompt env.promptTemplate env.completionResult
            (read_text_file content)).1 ++
          [Event.write (text_output_file text_file output_file)
            (textFileContent text_file
              (summarize_with_prompt env.promptTemplate env.completionResult
                (read_text_file content)).2)] := by
      simp only [process_text_file]
      rw [if_neg h1, if_neg hne]
    constructor
    · rw [hproc, writesOf_append, writesOf_summarize]
      simp [writesOf, Event.isWrite, textFileContent]
    · intro fs
      rw [hproc, applyEvents_append,
        applyEvents_no_writes _ (writesOf_summarize _ _ _)]
      simp [applyEvents, applyEvent, textFileContent]

/-- C2 witness: in the all-success environment, the batch item writes
exactly `summaries/summary_001.md` with header + summary + separator,
and the single-file run writes `article_summary.md` likewise, each
overwriting an arbitrary prior file state (here: an empty file system). -/
theorem C2_writer_header_summary_separator_witness :
    (extract_article_text testEnv.fetchResult "https://a.test".toList).2 ≠ [] ∧
    writesOf (processItem testEnv "summaries".toList 1 "https://a.test".toList) =
      [Event.write (path_join "summaries".toList (summaryFilename 1))
        ("# Summary for:\n".toList ++ "https://a.test".toList ++ "\n\n".toList ++
          ['S'] ++ "\n\n<br>\n".toList)] ∧
    applyEvents (fun _ => none)
        (processItem testEnv "summaries".toList 1 "https://a.test".toList)
        (path_join "summaries".toList (summaryFilename 1)) =
      some ("# Summary for:\n".toList ++ "https://a.test".toList ++ "\n\n".toList ++
        ['S'] ++ "\n\n<br>\n".toList) ∧
    writesOf (process_text_file testEnv "article.txt".toList (some "hello".toList) none) =
      [Event.write (text_output_file "article.txt".toList none)
        ("# Summary for: ".toList ++ "article.txt".toList ++ "\n\n".toList ++
          ['S'] ++ "\n".toList)] :=
  ⟨by decide,
    (C2_writer_header_summary_separator.1 testEnv "summaries".toList 1
      "https://a.test".toList ['S'] (by decide) (by decide) (by decide)).1,
    (C2_writer_header_summary_separator.1 testEnv "summaries".toList 1
      "https://a.test".toList ['S'] (by decide) (by decide) (by decide)).2 (fun _ => none),
    (C2_writer_header_summary_separator.2 testEnv "article.txt".toList
      (some "hello".toList) none ['S'] (by decide) (by decide) (by decide)).1⟩

/-- C5: if the summarizer returns the empty string for a batch item, no
file is written for that item, and the loop continues with the remaining
items unchanged, each keeping its own sequence number. -/
theorem C5_empty_summary_skips_item (env : Env) (output_dir : List Char)
    (i : Nat) (url : List Char) (rest : List (List Char))
    (h : (summarize_with_prompt env.promptTemplate env.completionResult
        (extract_article_text env.fetchResult url).2).2 = []) :
    writesOf (processItem env output_dir i url) = [] ∧
    processLoop env output_dir i (url :: rest) =
      processItem env output_dir i url ++ processLoop env output_dir (i + 1) rest := by
  refine ⟨?_, rfl⟩
  by_cases h1 : (extract_article_text env.fetchResult url).2 = []
  · have : processItem env output_dir i url =
        (extract_article_text env.fetchResult url).1 := by
      simp only [processItem]
      rw [if_pos h1]
    rw [this, writesOf_extract]
  · have : processItem env output_dir i url =
        (extract_article_text env.fetchResult url).1 ++
          (summarize_with_prompt env.promptTemplate env.completionResult
            (extract_article_text env.fetchResult url).2).1 := by
      simp only [processItem]
      rw [if_neg h1, if_pos h]
    rw [this, writesOf_append, writesOf_extract, writesOf_summarize]
    rfl

/-- C5 witness: a concrete environment whose completion API fails (empty
summary) writes nothing for the item. -/
theorem C5_empty_summary_skips_item_witness :
    (summarize_with_prompt
        ({ testEnv with completionResult := fun _ => none } : Env).promptTemplate
        ({ testEnv with completionResult := fun _ => none } : Env).completionResult
        (extract_article_text
          ({ testEnv with completionResult := fun _ => none } : Env).fetchResult
          "https://a.test".toList).2).2 = [] ∧
    writesOf (processItem { testEnv with completionResult := fun _ => none }
        "summaries".toList 1 "https://a.test".toList) = [] :=
  ⟨by decide,
    (C5_empty_summary_skips_item { testEnv with completionResult := fun _ => none }
      "summaries".toList 1 "https://a.test".toList [] (by decide)).1⟩

/-- Applying a trace to a file system realises its last write to each
path, and leaves paths it never writes unchanged. -/
theorem applyEvents_eq_lastWrite (evs : List Event) :
    ∀ (fs : Store) (p : List Char),
      applyEvents fs evs p =
        match lastWrite evs p with
        | some c => some c
        | none => fs p := by
  induction evs with
  | nil => intro fs p; rfl
  | cons e rest ih =>
    intro fs p
    show applyEvents (applyEvent fs e) rest p = _
    rw [ih]
    cases hlw : lastWrite rest p with
    | some c => simp [lastWrite, hlw]
    | none =>
      cases e with
      | write q c =>
        simp only [lastWrite, hlw, applyEvent]
        by_cases hpq : p = q
        · rw [if_pos hpq, if_pos hpq]
        · rw [if_neg hpq, if_neg hpq]
      | fetch u => simp [lastWrite, hlw, applyEvent]
      | completion pr => simp [lastWrite, hlw, applyEvent]
      | mkdir d => simp [lastWrite, hlw, applyEvent]

/-- C7: a batch run is deterministic given the environment, and re-running
it over the file system produced by the first run yields the same file
system: every output file is overwritten with byte-identical content. -/
theorem C7_rerun_idempotent (env : Env) (content : Option (List Char))
    (output_dir : List Char) (fs : Store) (p : List Char) :
    applyEvents (applyEvents fs (process_urls_from_file env content output_dir))
        (process_urls_from_file env content output_dir) p =
      applyEvents fs (process_urls_from_file env content output_dir) p := by
  rw [applyEvents_eq_lastWrite, applyEvents_eq_lastWrite]
  cases hlw : lastWrite (process_urls_from_file env content output_dir) p <;> simp [hlw]

/-- A path without separators is all basename. -/
theorem splitBase_no_sep (p : List Char) (h : '/' ∉ p) :
    splitBase p = ([], p) := by
  induction p with
  | nil => rfl
  | cons c rest ih =>
    have h1 : '/' ∉ rest := fun hm => h (List.mem_cons_of_mem c hm)
    have h2 : c ≠ '/' := fun hc => h (hc ▸ List.mem_cons_self c rest)
    simp [splitBase, h1, h2]

/-- A dot-free basename has no extension split point. -/
theorem splitLastDot_no_dot (l : List Char) (h : '.' ∉ l) :
    splitLastDot l = none := by
  induction l with
  | nil => rfl
  | cons c rest ih =>
    have h1 : '.' ∉ rest := fun hm => h (List.mem_cons_of_mem c hm)
    have h2 : c ≠ '.' := fun hc => h (hc ▸ List.mem_cons_self c rest)
    simp [splitLastDot, ih h1, h2]

/-- A dot followed by a dot-free tail splits at that dot. -/
theorem splitLastDot_dot (ext : List Char) (h : '.' ∉ ext) :
    splitLastDot ('.' :: ext) = some ([], '.' :: ext) := by
  simp [splitLastDot, splitLastDot_no_dot ext h]

/-- Prepending to a basename that splits keeps the same split point. -/
theorem splitLastDot_append (pre : List Char) {rest s e : List Char}
    (h : splitLastDot rest = some (s, e)) :
    splitLastDot (pre ++ rest) = some (pre ++ s, e) := by
  induction pre with
  | nil => simpa using h
  | cons c pre ih => simp [splitLastDot, ih]

/-- C9: in single-file mode with no explicit output override, an input
path of the form `stem.ext` (non-empty dot-free, slash-free stem and
dot-free, slash-free extension) produces the output name
`stem_summary.md`: the extension is removed and `_summary.md` is
appended. -/
theorem C9_single_file_output_name (stem ext : List Char)
    (hs0 : stem ≠ []) (hsd : '.' ∉ stem) (hss : '/' ∉ stem)
    (hed : '.' ∉ ext) (hes : '/' ∉ ext) :
    text_output_file (stem ++ '.' :: ext) none = stem ++ "_summary.md".toList := by
  have hnos : '/' ∉ stem ++ '.' :: ext := by
    intro hm
    rcases List.mem_append.1 hm with hm | hm
    · exact hss hm
    · rcases List.mem_cons.1 hm with hm | hm
      · exact absurd hm.symm (by decide)
      · exact hes hm
  have hb : splitBase (stem ++ '.' :: ext) = ([], stem ++ '.' :: ext) :=
    splitBase_no_sep _ hnos
  have hld : splitLastDot (stem ++ '.' :: ext) = some (stem, '.' :: ext) := by
    have := splitLastDot_append stem (splitLastDot_dot ext hed)
    simpa using this
  have hall : (stem.all fun c => c = '.') = false := by
    cases stem with
    | nil => exact absurd rfl hs0
    | cons c s =>
      have hc : c ≠ '.' := fun hc => hsd (hc ▸ List.mem_cons_self c s)
      simp [List.all_cons, hc]
  simp [text_output_file, splitext, hb, hld, hall]

/-- C9 witness: input `article.txt` produces output `article_summary.md`. -/
theorem C9_single_file_output_name_witness :
    "article".toList ≠ [] ∧ '.' ∉ "article".toList ∧ '/' ∉ "article".toList ∧
    '.' ∉ "txt".toList ∧ '/' ∉ "txt".toList ∧
    text_output_file ("article".toList ++ '.' :: "txt".toList) none =
      "article".toList ++ "_summary.md".toList :=
  ⟨by decide, by decide, by decide, by decide, by decide,
    C9_single_file_output_name "article".toList "txt".toList
      (by decide) (by decide) (by decide) (by decide) (by decide)⟩

end ContentSummarizer
